import Mathlib

/-!
Verification development for the xlog logging library.

The embedding models the current revision of the package (the file that
declares `ParseLevel`, caller-info capture and the order-preserving
`RemoveListener`).  Go strings and byte buffers are modelled as `List Char`
(all bytes handled by the library are appended character data), machine
integers as `Nat` / `Int` (level ordinals are 0..5, far from any overflow),
interface identity of listeners as `Nat` identifiers, and the panics that
Go slicing can raise as `Option` results.  `os.Exit` and the write fan-out
are modelled by returning the exit decision and the per-listener writes
explicitly.
-/

namespace XLog

/-! ### Levels -/

/-- Go: `PanicLevel Level = iota` — ordinal 0, most severe. -/
def PanicLevel : Nat := 0
/-- Go: `FatalLevel` — ordinal 1. -/
def FatalLevel : Nat := 1
/-- Go: `ErrorLevel` — ordinal 2. -/
def ErrorLevel : Nat := 2
/-- Go: `WarnLevel` — ordinal 3. -/
def WarnLevel : Nat := 3
/-- Go: `InfoLevel` — ordinal 4. -/
def InfoLevel : Nat := 4
/-- Go: `DebugLevel` — ordinal 5, least severe. -/
def DebugLevel : Nat := 5

/-- Go: `var Level2Str = [...]string{"PANIC", "FATAL", "ERROR", "WARN", "INFO", "DEBUG"}`. -/
def Level2Str : List String := ["PANIC", "FATAL", "ERROR", "WARN", "INFO", "DEBUG"]

/-- Go loop body of `ParseLevel`: `for i, v := range Level2Str { if v == str { return Level(i), true } }`,
with the running index made explicit. -/
def parseLevelAux : Nat → List String → String → Nat × Bool
  | _, [], _ => (InfoLevel, false)
  | i, v :: rest, str => if v = str then (i, true) else parseLevelAux (i + 1) rest str

/-- Go: `func ParseLevel(str string) (Level, bool)` — returns `(Level(i), true)` on the first
match in `Level2Str`, otherwise `(InfoLevel, false)`. -/
def ParseLevel (str : String) : Nat × Bool := parseLevelAux 0 Level2Str str

/-! ### Layouters -/

/-- The thirteen token formatters plus the literal fragment, one constructor per
concrete type implementing the Go `Layouter` interface. -/
inductive Layouter
  | logouterYear
  | logouterMonth
  | logouterDay
  | logouterHour
  | logouterMinute
  | logouterSecond
  | layouterMsg
  | layouterLevel
  | layouterFile
  | layouterShortFile
  | layouterLine
  | layouterDate
  | layouterTime
  | layouterPlaceholder (placeholder : List Char)
deriving DecidableEq

/-- Timestamp fields used by the formatters (Go `time.Time` projections
`Year/Month/Day/Hour/Minute/Second`; `Date()` and `Clock()` return the same
triples of fields). -/
structure GoTime where
  year : Nat
  month : Nat
  day : Nat
  hour : Nat
  minute : Nat
  second : Nat
deriving DecidableEq

def digitChar (n : Nat) : Char := Char.ofNat (48 + n)

/-- Go `itoa` loop: `for i >= 10 || wid > 1 { wid--; q := i / 10; b[bp] = byte(48 + i - q*10); bp--; i = q }`
followed by a final digit.  Each iteration strictly decreases `i + wid.toNat`, so that
measure is used as structural fuel; when the fuel is 0 the loop condition is false
(`i = 0` and `wid ≤ 0`), so the base case emits the same final digit the Go code does
and the fuel is never exhausted early. -/
def itoaAux : Nat → Nat → Int → List Char
  | 0, i, _ => [digitChar i]
  | fuel + 1, i, wid =>
    if 10 ≤ i ∨ 1 < wid then itoaAux fuel (i / 10) (wid - 1) ++ [digitChar (i % 10)]
    else [digitChar i]

/-- Go: `func itoa(buf *[]byte, i int, wid int)` — the digits it appends. -/
def itoa (i : Nat) (wid : Int) : List Char := itoaAux (i + wid.toNat) i wid

/-- Go loop of `layouterShortFile.layout`: `for i := len(file) - 1; i > 0; i--`,
the argument being the current loop index (index 0 is never inspected). -/
def shortFileAux (file : List Char) : Nat → List Char
  | 0 => file
  | i + 1 => if file.getD (i + 1) ' ' = '/' then file.drop (i + 2) else shortFileAux file i

/-- Go: `layouterShortFile.layout` — `short := file`, scan indices `len-1 .. 1` for the
last `'/'` and keep the suffix after it. -/
def shortFile (file : List Char) : List Char := shortFileAux file (file.length - 1)

/-- The `layout` method of each concrete layouter, as one match.  `Level2Str.getD`
models the Go array index `Level2Str[lev]`; the claims only exercise it with
ordinals 0..5, where the two agree (Go panics out of range). -/
def layout (ly : Layouter) (buf : List Char) (lev : Nat) (msg : List Char)
    (t : GoTime) (file : List Char) (line : Nat) : List Char :=
  match ly with
  | .logouterYear => buf ++ itoa t.year 4
  | .logouterMonth => buf ++ itoa t.month 2
  | .logouterDay => buf ++ itoa t.day 2
  | .logouterHour => buf ++ itoa t.hour 2
  | .logouterMinute => buf ++ itoa t.minute 2
  | .logouterSecond => buf ++ itoa t.second 2
  | .layouterMsg => buf ++ msg
  | .layouterLevel => buf ++ ['['] ++ (Level2Str.getD lev "").data ++ [']']
  | .layouterFile => buf ++ file
  | .layouterShortFile => buf ++ shortFile file
  | .layouterLine => buf ++ itoa line (-1)
  | .layouterDate => buf ++ itoa t.year 4 ++ ['/'] ++ itoa t.month 2 ++ ['/'] ++ itoa t.day 2
  | .layouterTime => buf ++ itoa t.hour 2 ++ [':'] ++ itoa t.minute 2 ++ [':'] ++ itoa t.second 2
  | .layouterPlaceholder s => buf ++ s

/-- Go: `var mapLayouter = map[string]Layouter{...}` — lookup of a two-character key. -/
def mapLayouter (f : List Char) : Option Layouter :=
  if f = ['%', 'y'] then some .logouterYear
  else if f = ['%', 'M'] then some .logouterMonth
  else if f = ['%', 'd'] then some .logouterDay
  else if f = ['%', 'h'] then some .logouterHour
  else if f = ['%', 'm'] then some .logouterMinute
  else if f = ['%', 's'] then some .logouterSecond
  else if f = ['%', 'l'] then some .layouterMsg
  else if f = ['%', 'L'] then some .layouterLevel
  else if f = ['%', 'F'] then some .layouterFile
  else if f = ['%', 'f'] then some .layouterShortFile
  else if f = ['%', 'i'] then some .layouterLine
  else if f = ['%', 'D'] then some .layouterDate
  else if f = ['%', 'T'] then some .layouterTime
  else none

/-- The `switch layouter.(type) { case *layouterFile, *layouterShortFile, *layouterLine: }`
test used by `SetLayout` to decide whether caller info is needed. -/
def needsCaller : Layouter → Bool
  | .layouterFile => true
  | .layouterShortFile => true
  | .layouterLine => true
  | _ => false

/-- Go: `strings.IndexByte` on the modelled string. -/
def indexByte : List Char → Char → Option Nat
  | [], _ => none
  | a :: as, c => if a = c then some 0 else (indexByte as c).map (· + 1)

/-! ### Layout compilation (the loop body of `SetLayout`) -/

/-- One Go iteration consumes at least two characters of `layout`, so
`layout.length + 1` iterations always suffice; the fuel-0 case is unreachable
from `compileLayout`.  `none` models the Go panic raised by the slice
`layout[i : i+2]` when `i+2 > len(layout)` (the subsequent
`if i+2 > len(layout) { break }` in the source is dead code: the slice has
already panicked in exactly that situation).  `acc` is the `l.layouters`
accumulator and `need` the running `l.needCallerInfo` flag. -/
def compileAux : Nat → List Char → List Layouter → Bool → Option (List Layouter × Bool)
  | 0, _, _, _ => none
  | fuel + 1, lay, acc, need =>
    match indexByte lay '%' with
    | some i =>
      let acc1 := if i ≠ 0 then acc ++ [Layouter.layouterPlaceholder (lay.take i)] else acc
      if lay.length < i + 2 then
        none
      else
        match mapLayouter ((lay.drop i).take 2) with
        | some ly =>
          if lay.length < i + 2 then some (acc1 ++ [ly], need || needsCaller ly)
          else compileAux fuel (lay.drop (i + 2)) (acc1 ++ [ly]) (need || needsCaller ly)
        | none =>
          let acc2 := acc1 ++ [Layouter.layouterPlaceholder ((lay.drop i).take 2)]
          if lay.length < i + 2 then some (acc2, need)
          else compileAux fuel (lay.drop (i + 2)) acc2 need
    | none =>
      if lay.length > 0 then some (acc ++ [Layouter.layouterPlaceholder lay], need)
      else some (acc, need)

/-- The whole compilation loop of `SetLayout`, starting from a given accumulator
and caller-info flag. -/
def compileLayout (lay : List Char) (acc : List Layouter) (need : Bool) :
    Option (List Layouter × Bool) :=
  compileAux (lay.length + 1) lay acc need

/-- Go: `const DefaultLoggerLayout = "%L %D %T %l"`. -/
def DefaultLoggerLayout : List Char := "%L %D %T %l".data

/-! ### The Logger -/

/-- The Logger state (mutex omitted: the claims are about the sequential
behaviour each operation performs under the lock).  Listeners are identified
by `Nat` handles, matching the Go comparison of interface identity. -/
structure Logger where
  lev : Nat
  lis : List Nat
  layouters : List Layouter
  buf : List Char
  needCallerInfo : Bool
deriving DecidableEq

/-- Go: `func (l *Logger) SetLayout(layout string)` — substitute the default
pattern for an empty one, clear `l.layouters`, then run the compile loop.
`none` models the panic on a pattern whose last byte is `'%'`. -/
def SetLayout (l : Logger) (lay : List Char) : Option Logger :=
  let lay := if lay.length = 0 then DefaultLoggerLayout else lay
  match compileLayout lay [] l.needCallerInfo with
  | some (ls, need) => some { l with layouters := ls, needCallerInfo := need }
  | none => none

/-- Go: `func (l *Logger) AddListener(lis Listener) bool`. -/
def AddListener (l : Logger) (lis : Nat) : Logger × Bool :=
  if lis ∈ l.lis then (l, false)
  else ({ l with lis := l.lis ++ [lis] }, true)

/-- Go removal `l.lis = append(l.lis[:i], l.lis[i+1:]...)` at the first index
whose element equals `lis`; `none` when no element matches. -/
def removeFirst : List Nat → Nat → Option (List Nat)
  | [], _ => none
  | a :: as, x => if a = x then some as else (removeFirst as x).map (a :: ·)

/-- Go: `func (l *Logger) RemoveListener(lis Listener) bool`. -/
def RemoveListener (l : Logger) (lis : Nat) : Logger × Bool :=
  match removeFirst l.lis lis with
  | some ls => ({ l with lis := ls }, true)
  | none => (l, false)

/-- The caller-info resolution inside `Log`: `file` and `line` keep their zero
values unless `l.needCallerInfo` is set, in which case `runtime.Caller` either
succeeds or yields `file = "???"`, `line = 0`. -/
def resolveCaller (need ok : Bool) (cfile : List Char) (cline : Nat) : List Char × Nat :=
  if need then (if ok then (cfile, cline) else (['?', '?', '?'], 0))
  else ([], 0)

/-- The buffer a passing `Log` call builds: reset to empty, every compiled
layouter run in order, and `'\n'` appended when
`len(buf) == 0 || buf[len(buf)-1] != '\n'`. -/
def renderLine (lys : List Layouter) (level : Nat) (msg : List Char) (t : GoTime)
    (cfile : List Char) (cline : Nat) : List Char :=
  let b := lys.foldl (fun acc ly => layout ly acc level msg t cfile cline) []
  if b.length = 0 ∨ ¬ b.getD (b.length - 1) ' ' = '\n' then b ++ ['\n'] else b

/-- Go: `func (l *Logger) Log(level Level, msg string)`.  The result pairs the
logger after the call with the list of `(listener, bytes)` writes performed;
`callerOk`, `cfile`, `cline` stand for the nondeterministic outcome of
`runtime.Caller(2)`.  When `l.lev >= level` fails the body is skipped whole. -/
def Log (l : Logger) (level : Nat) (msg : List Char) (now : GoTime)
    (callerOk : Bool) (cfile : List Char) (cline : Nat) :
    Logger × List (Nat × List Char) :=
  if l.lev ≥ level then
    let fl := resolveCaller l.needCallerInfo callerOk cfile cline
    let line := renderLine l.layouters level msg now fl.1 fl.2
    ({ l with buf := line }, l.lis.map (fun s => (s, line)))
  else (l, [])

/-- Outcome of `Logger.Fatal`: the `Log` call's effects plus the `os.Exit`
decision. -/
structure FatalResult where
  logger : Logger
  writes : List (Nat × List Char)
  exited : Bool
  exitCode : Nat
deriving DecidableEq

/-- Go: `func (l *Logger) Fatal(v ...interface{}) { l.Log(FatalLevel, fmt.Sprint(v...)); os.Exit(1) }` —
`os.Exit(1)` runs unconditionally after `Log` returns. -/
def Fatal (l : Logger) (msg : List Char) (now : GoTime) (callerOk : Bool)
    (cfile : List Char) (cline : Nat) : FatalResult :=
  { logger := (Log l FatalLevel msg now callerOk cfile cline).1,
    writes := (Log l FatalLevel msg now callerOk cfile cline).2,
    exited := true,
    exitCode := 1 }

end XLog

namespace XLog

/-! ### Concrete fixtures used by witnesses and counterexamples -/

/-- A fixed timestamp: 2017/01/05 18:02:17. -/
def t0 : GoTime := ⟨2017, 1, 5, 18, 2, 17⟩

/-- A logger at the Info threshold with one listener and a message-only layout. -/
def baseLogger : Logger :=
  { lev := InfoLevel, lis := [1], layouters := [Layouter.layouterMsg],
    buf := [], needCallerInfo := false }

/-- A logger whose threshold (Panic) filters the Fatal level out. -/
def fatalLogger : Logger :=
  { lev := PanicLevel, lis := [1], layouters := [Layouter.layouterMsg],
    buf := [], needCallerInfo := false }

/-! ### C1 — fatal is not gated on the threshold -/

/-- C1, counterexample: a logger whose threshold (PanicLevel = 0) is strictly below
FatalLevel = 1 still has `Fatal` terminate the process — `os.Exit(1)` runs
unconditionally after the (suppressed) `Log` call, contradicting the claim that
no termination happens when the fatal level is filtered out. -/
theorem c1_counterexample :
    fatalLogger.lev < FatalLevel ∧
    (Fatal fatalLogger "boom".data t0 true [] 0).writes = [] ∧
    (Fatal fatalLogger "boom".data t0 true [] 0).exited = true := by
  decide

/-- C1, amended: when the threshold is strictly below FatalLevel, `Fatal` writes
nothing to any sink, but it still terminates the process with exit status 1 —
the `os.Exit(1)` call is unconditional, not gated on the threshold check. -/
theorem c1_fatal_unconditional_exit (l : Logger) (msg : List Char) (now : GoTime)
    (ok : Bool) (cf : List Char) (cn : Nat) (h : l.lev < FatalLevel) :
    (Fatal l msg now ok cf cn).writes = [] ∧
    (Fatal l msg now ok cf cn).exited = true ∧
    (Fatal l msg now ok cf cn).exitCode = 1 := by
  have hx : ¬ l.lev ≥ FatalLevel := Nat.not_le.mpr h
  refine ⟨?_, rfl, rfl⟩
  show (Log l FatalLevel msg now ok cf cn).2 = []
  simp [Log, hx]

/-- Witness for `c1_fatal_unconditional_exit` at the concrete suppressed logger. -/
theorem c1_fatal_unconditional_exit_witness :
    fatalLogger.lev < FatalLevel ∧
    ((Fatal fatalLogger "boom".data t0 true [] 0).writes = [] ∧
     (Fatal fatalLogger "boom".data t0 true [] 0).exited = true ∧
     (Fatal fatalLogger "boom".data t0 true [] 0).exitCode = 1) :=
  ⟨by decide, c1_fatal_unconditional_exit fatalLogger "boom".data t0 true [] 0 (by decide)⟩

/-! ### C2 — a pattern ending in '%' panics in the compiler -/

/-- C2: the claim says `SetLayout` completes on every pattern, including one that
ends with `'%'`; the code instead evaluates `layout[i : i+2]` before its
`i+2 > len(layout)` guard, so the degenerate trailing token raises a
slice-bounds panic (modelled as `none`).  The guard in the source is dead code. -/
theorem c2_trailing_percent_panics :
    SetLayout baseLogger ['%'] = none ∧
    SetLayout baseLogger ['a', '%'] = none ∧
    compileLayout ['%'] [] false = none := by
  decide

/-! ### C3 — threshold filtering of Log -/

/-- C3: a `Log` call emits iff `threshold >= level`; when the threshold is below
the message level the call is a complete no-op — the logger state (buffer
included) is returned unchanged and no listener receives any bytes; otherwise
every registered listener receives exactly the rendered line, in order. -/
theorem c3_log_threshold (l : Logger) (level : Nat) (msg : List Char) (now : GoTime)
    (ok : Bool) (cf : List Char) (cn : Nat) :
    (l.lev < level → Log l level msg now ok cf cn = (l, [])) ∧
    (l.lev ≥ level → Log l level msg now ok cf cn =
      ({ l with buf := (renderLine l.layouters level msg now
           (resolveCaller l.needCallerInfo ok cf cn).1
           (resolveCaller l.needCallerInfo ok cf cn).2) },
       l.lis.map (fun s => (s, renderLine l.layouters level msg now
           (resolveCaller l.needCallerInfo ok cf cn).1
           (resolveCaller l.needCallerInfo ok cf cn).2)))) := by
  constructor
  · intro h
    have hx : ¬ l.lev ≥ level := Nat.not_le.mpr h
    simp [Log, hx]
  · intro h
    simp [Log, h]

/-- Witness for `c3_log_threshold`: the Info-threshold logger suppresses a Debug
message entirely and emits an Info message to its listener. -/
theorem c3_log_threshold_witness :
    (baseLogger.lev < DebugLevel ∧
      Log baseLogger DebugLevel "test log".data t0 true [] 0 = (baseLogger, [])) ∧
    (baseLogger.lev ≥ InfoLevel ∧
      Log baseLogger InfoLevel "test log".data t0 true [] 0 =
        ({ baseLogger with buf := (renderLine baseLogger.layouters InfoLevel "test log".data t0
             (resolveCaller baseLogger.needCallerInfo true [] 0).1
             (resolveCaller baseLogger.needCallerInfo true [] 0).2) },
         baseLogger.lis.map (fun s => (s,
           renderLine baseLogger.layouters InfoLevel "test log".data t0
             (resolveCaller baseLogger.needCallerInfo true [] 0).1
             (resolveCaller baseLogger.needCallerInfo true [] 0).2)))) :=
  ⟨⟨by decide, (c3_log_threshold baseLogger DebugLevel "test log".data t0 true [] 0).1 (by decide)⟩,
   ⟨by decide, (c3_log_threshold baseLogger InfoLevel "test log".data t0 true [] 0).2 (by decide)⟩⟩

/-! ### C7 — composed date and time tokens -/

/-- C7: for every timestamp, the bytes `%D` appends are exactly those of
`%y ++ "/" ++ %M ++ "/" ++ %d`, and the bytes `%T` appends are exactly those of
`%h ++ ":" ++ %m ++ ":" ++ %s`. -/
theorem c7_composed_tokens (t : GoTime) (buf : List Char) (lev : Nat) (msg : List Char)
    (f : List Char) (n : Nat) :
    layout Layouter.layouterDate buf lev msg t f n =
      buf ++ layout Layouter.logouterYear [] lev msg t f n ++ ['/']
          ++ layout Layouter.logouterMonth [] lev msg t f n ++ ['/']
          ++ layout Layouter.logouterDay [] lev msg t f n ∧
    layout Layouter.layouterTime buf lev msg t f n =
      buf ++ layout Layouter.logouterHour [] lev msg t f n ++ [':']
          ++ layout Layouter.logouterMinute [] lev msg t f n ++ [':']
          ++ layout Layouter.logouterSecond [] lev msg t f n := by
  constructor <;> simp [layout]

/-! ### C9 — ParseLevel -/

/-- Helper: scanning a list that does not contain the query string yields the
Info fallback with a false flag, for any starting index. -/
theorem parseLevelAux_not_mem (L : List String) (s : String) :
    ∀ n, s ∉ L → parseLevelAux n L s = (InfoLevel, false) := by
  induction L with
  | nil => intro n _; rfl
  | cons v rest ih =>
    intro n hs
    have h1 : ¬ v = s := fun h => hs (h ▸ List.mem_cons_self v rest)
    simp only [parseLevelAux, h1, if_false]
    exact ih (n + 1) (fun h => hs (List.mem_cons_of_mem _ h))

/-- C9: `ParseLevel` round-trips on each of the six display names, returning the
matching ordinal with a true flag, and returns `(InfoLevel, false)` — never an
error — on any string that is not one of the six exact (case-sensitive) names. -/
theorem c9_parse_level :
    (∀ lev : Nat, lev < 6 → ParseLevel (Level2Str.getD lev "") = (lev, true)) ∧
    (∀ s : String, s ∉ Level2Str → ParseLevel s = (InfoLevel, false)) := by
  constructor
  · decide
  · intro s hs
    exact parseLevelAux_not_mem Level2Str s 0 hs

/-- Witness for `c9_parse_level`: the first display name parses back to ordinal 0,
and the lowercase string "info" is rejected with the Info fallback. -/
theorem c9_parse_level_witness :
    (0 < 6 ∧ ParseLevel (Level2Str.getD 0 "") = (0, true)) ∧
    ("info" ∉ Level2Str ∧ ParseLevel "info" = (InfoLevel, false)) :=
  ⟨⟨by decide, c9_parse_level.1 0 (by decide)⟩,
   ⟨by decide, c9_parse_level.2 "info" (by decide)⟩⟩


/-! ### C10 — caller-capture failure fallback -/

/-- C10: when the layout needs caller info and `runtime.Caller` fails, `Log`
still emits the line, with the file argument resolved to the three characters
`???` and the line number to 0; the `%F` formatter then appends exactly `???`
and the `%i` formatter exactly `0`. -/
theorem c10_caller_fallback (l : Logger) (level : Nat) (msg : List Char) (now : GoTime)
    (cf : List Char) (cn : Nat) (hneed : l.needCallerInfo = true) (hlev : l.lev ≥ level) :
    Log l level msg now false cf cn =
      ({ l with buf := (renderLine l.layouters level msg now ['?', '?', '?'] 0) },
       l.lis.map (fun s => (s, renderLine l.layouters level msg now ['?', '?', '?'] 0))) ∧
    (∀ b lv m t n, layout Layouter.layouterFile b lv m t ['?', '?', '?'] n = b ++ ['?', '?', '?']) ∧
    (∀ b lv m t f2, layout Layouter.layouterLine b lv m t f2 0 = b ++ ['0']) := by
  have hz : itoa 0 (-1) = ['0'] := by decide
  refine ⟨?_, fun b lv m t n => rfl, fun b lv m t f2 => ?_⟩
  · simp [Log, hlev, resolveCaller, hneed]
  · show b ++ itoa 0 (-1) = b ++ ['0']
    rw [hz]

/-- A logger whose layout renders caller file and line, hence needs caller info. -/
def callerLogger : Logger :=
  { lev := InfoLevel, lis := [1], layouters := [Layouter.layouterFile, Layouter.layouterLine],
    buf := [], needCallerInfo := true }

/-- Witness for `c10_caller_fallback` at a concrete caller-info logger. -/
theorem c10_caller_fallback_witness :
    (callerLogger.needCallerInfo = true ∧ callerLogger.lev ≥ InfoLevel) ∧
    (Log callerLogger InfoLevel "x".data t0 false "real.go".data 7 =
      ({ callerLogger with buf := (renderLine callerLogger.layouters InfoLevel "x".data t0 ['?', '?', '?'] 0) },
       callerLogger.lis.map (fun s => (s, renderLine callerLogger.layouters InfoLevel "x".data t0 ['?', '?', '?'] 0))) ∧
    (∀ b lv m t n, layout Layouter.layouterFile b lv m t ['?', '?', '?'] n = b ++ ['?', '?', '?']) ∧
    (∀ b lv m t f2, layout Layouter.layouterLine b lv m t f2 0 = b ++ ['0'])) :=
  ⟨⟨by decide, by decide⟩,
   c10_caller_fallback callerLogger InfoLevel "x".data t0 "real.go".data 7 rfl (by decide)⟩

/-! ### C5 — listener set semantics -/

/-- Helper: removal scans for identity and fails when the listener is absent. -/
theorem removeFirst_not_mem (as : List Nat) (x : Nat) (h : x ∉ as) :
    removeFirst as x = none := by
  induction as with
  | nil => rfl
  | cons a as ih =>
    have h1 : ¬ a = x := fun hax => h (hax ▸ List.mem_cons_self a as)
    simp only [removeFirst, h1, if_false]
    rw [ih (fun hm => h (List.mem_cons_of_mem _ hm))]
    rfl

/-- Helper: removing a listener that occurs exactly once at the end keeps the
prefix, preserving order. -/
theorem removeFirst_append_self (as : List Nat) (x : Nat) (h : x ∉ as) :
    removeFirst (as ++ [x]) x = some as := by
  induction as with
  | nil => simp [removeFirst]
  | cons a as ih =>
    have h1 : ¬ a = x := fun hax => h (hax ▸ List.mem_cons_self a as)
    have h2 : x ∉ as := fun hm => h (List.mem_cons_of_mem _ hm)
    simp [removeFirst, h1, ih h2]

/-- C5: listener registration has set semantics by identity — adding a fresh
listener returns true, adding it again returns false without mutation; removing
it then returns true (restoring the original logger) and false on a second
attempt; and removing the middle element of a three-listener list keeps the
remaining two in their original relative order. -/
theorem c5_listener_set_semantics (l : Logger) (x a b c : Nat)
    (hx : x ∉ l.lis) (hab : a ≠ b) :
    (AddListener l x).2 = true ∧
    AddListener (AddListener l x).1 x = ((AddListener l x).1, false) ∧
    RemoveListener (AddListener l x).1 x = (l, true) ∧
    RemoveListener l x = (l, false) ∧
    RemoveListener { l with lis := [a, b, c] } b = ({ l with lis := [a, c] }, true) := by
  have hadd : AddListener l x = ({ l with lis := l.lis ++ [x] }, true) := by
    simp [AddListener, hx]
  refine ⟨by rw [hadd], ?_, ?_, ?_, ?_⟩
  · rw [hadd]
    simp [AddListener]
  · rw [hadd]
    show RemoveListener { l with lis := l.lis ++ [x] } x = (l, true)
    simp only [RemoveListener, removeFirst_append_self l.lis x hx]
  · simp only [RemoveListener, removeFirst_not_mem l.lis x hx]
  · simp [RemoveListener, removeFirst, hab]

/-- Witness for `c5_listener_set_semantics` on the concrete base logger. -/
theorem c5_listener_set_semantics_witness :
    (7 ∉ baseLogger.lis ∧ (1 : Nat) ≠ 2) ∧
    ((AddListener baseLogger 7).2 = true ∧
     AddListener (AddListener baseLogger 7).1 7 = ((AddListener baseLogger 7).1, false) ∧
     RemoveListener (AddListener baseLogger 7).1 7 = (baseLogger, true) ∧
     RemoveListener baseLogger 7 = (baseLogger, false) ∧
     RemoveListener { baseLogger with lis := [1, 2, 3] } 2 =
       ({ baseLogger with lis := [1, 3] }, true)) :=
  ⟨⟨by decide, by decide⟩,
   c5_listener_set_semantics baseLogger 7 1 2 3 (by decide) (by decide)⟩

/-! ### C6 — unknown escapes pass through verbatim -/

/-- C6: compiling a two-character escape whose key is absent from the token
table appends the two raw characters as a literal fragment — whose rendering
emits them verbatim — while a recognized key compiles to its token formatter. -/
theorem c6_unknown_escape (ch : Char) :
    (mapLayouter ['%', ch] = none →
      compileLayout ['%', ch] [] false =
        some ([Layouter.layouterPlaceholder ['%', ch]], false)) ∧
    (∀ ly, mapLayouter ['%', ch] = some ly →
      compileLayout ['%', ch] [] false = some ([ly], needsCaller ly)) ∧
    (∀ b lv m t f2 n,
      layout (Layouter.layouterPlaceholder ['%', ch]) b lv m t f2 n = b ++ ['%', ch]) := by
  refine ⟨fun h => ?_, fun ly h => ?_, fun b lv m t f2 n => rfl⟩
  · simp [compileLayout, compileAux, indexByte, h]
  · simp [compileLayout, compileAux, indexByte, h]

/-- Witness for `c6_unknown_escape` at the unrecognized key `%Q`. -/
theorem c6_unknown_escape_witness :
    mapLayouter ['%', 'Q'] = none ∧
    compileLayout ['%', 'Q'] [] false =
      some ([Layouter.layouterPlaceholder ['%', 'Q']], false) :=
  ⟨by decide, (c6_unknown_escape 'Q').1 (by decide)⟩


/-! ### C4 — SetLayout replaces the compiled program -/

/-- Helper: the compile loop is a pure function of the remaining pattern — the
accumulated layouter list is a prefix it only ever appends to, and the
caller-info flag only ever absorbs further `or`s. -/
theorem compileAux_acc (fuel : Nat) :
    ∀ (lay : List Char) (acc : List Layouter) (need : Bool),
      compileAux fuel lay acc need =
        (compileAux fuel lay [] false).map (fun r => (acc ++ r.1, need || r.2)) := by
  induction fuel with
  | zero => intro lay acc need; rfl
  | succ fuel ih =>
    intro lay acc need
    simp only [compileAux]
    cases hidx : indexByte lay '%' with
    | none =>
      by_cases hlen : lay.length > 0 <;> simp [hlen]
    | some i =>
      have hition : ∀ (a : List Layouter),
          (if i ≠ 0 then a ++ [Layouter.layouterPlaceholder (lay.take i)] else a) =
            a ++ (if i ≠ 0 then [Layouter.layouterPlaceholder (lay.take i)] else []) := by
        intro a; split <;> simp
      by_cases hp : lay.length < i + 2
      · simp [hp]
      · cases hmap : mapLayouter ((lay.drop i).take 2) with
        | some ly =>
          simp only [if_neg hp, hmap]
          rw [hition acc, hition []]
          rw [ih (lay.drop (i + 2))
              ((acc ++ (if i ≠ 0 then [Layouter.layouterPlaceholder (lay.take i)] else [])) ++ [ly])
              (need || needsCaller ly)]
          rw [ih (lay.drop (i + 2))
              (([] ++ (if i ≠ 0 then [Layouter.layouterPlaceholder (lay.take i)] else [])) ++ [ly])
              (false || needsCaller ly)]
          cases compileAux fuel (lay.drop (i + 2)) [] false with
          | none => rfl
          | some r => simp [List.append_assoc, Bool.or_assoc]
        | none =>
          simp only [if_neg hp, hmap]
          rw [hition acc, hition []]
          rw [ih (lay.drop (i + 2))
              ((acc ++ (if i ≠ 0 then [Layouter.layouterPlaceholder (lay.take i)] else [])) ++
                [Layouter.layouterPlaceholder ((lay.drop i).take 2)])
              need]
          rw [ih (lay.drop (i + 2))
              (([] ++ (if i ≠ 0 then [Layouter.layouterPlaceholder (lay.take i)] else [])) ++
                [Layouter.layouterPlaceholder ((lay.drop i).take 2)])
              false]
          cases compileAux fuel (lay.drop (i + 2)) [] false with
          | none => rfl
          | some r => simp [List.append_assoc, Bool.or_assoc]

/-- Helper: `SetLayout` always installs exactly the program compiled from the
pattern alone; the previous logger state only feeds the threshold, listeners,
buffer and the sticky caller-info flag through. -/
theorem setLayout_eq (lg : Logger) (p : List Char) :
    SetLayout lg p =
      (compileAux ((if p.length = 0 then DefaultLoggerLayout else p).length + 1)
          (if p.length = 0 then DefaultLoggerLayout else p) [] false).map
        (fun r => { lg with layouters := r.1, needCallerInfo := lg.needCallerInfo || r.2 }) := by
  simp only [SetLayout, compileLayout]
  rw [compileAux_acc]
  cases compileAux ((if p.length = 0 then DefaultLoggerLayout else p).length + 1)
      (if p.length = 0 then DefaultLoggerLayout else p) [] false with
  | none => rfl
  | some r => simp

/-- C4: whenever `SetLayout p` completes, the installed compiled formatter
sequence depends only on the pattern `p`, not on the logger it ran on — so two
loggers given the same pattern end with identical programs — and running
`SetLayout p` a second time on the result leaves the sequence unchanged
(compilation replaces, never appends). -/
theorem c4_setLayout_replaces (l l2 : Logger) (p : List Char) :
    ((SetLayout l p).map Logger.layouters = (SetLayout l2 p).map Logger.layouters) ∧
    (∀ m, SetLayout l p = some m →
      (SetLayout m p).map Logger.layouters = some m.layouters) := by
  constructor
  · rw [setLayout_eq l p, setLayout_eq l2 p]
    cases compileAux ((if p.length = 0 then DefaultLoggerLayout else p).length + 1)
        (if p.length = 0 then DefaultLoggerLayout else p) [] false with
    | none => rfl
    | some r => rfl
  · intro m hm
    rw [setLayout_eq l p] at hm
    rw [setLayout_eq m p]
    cases hc : compileAux ((if p.length = 0 then DefaultLoggerLayout else p).length + 1)
        (if p.length = 0 then DefaultLoggerLayout else p) [] false with
    | none => rw [hc] at hm; exact absurd hm (by simp)
    | some r =>
      rw [hc] at hm
      simp at hm
      subst hm
      simp

/-- The logger produced by compiling the pattern `%l` onto the base logger. -/
def msgOnlyLogger : Logger :=
  { baseLogger with layouters := [Layouter.layouterMsg], needCallerInfo := false }

/-- Witness for `c4_setLayout_replaces`: two different loggers compile `%l` to
the same one-token program, and recompiling is idempotent. -/
theorem c4_setLayout_replaces_witness :
    ((SetLayout baseLogger "%l".data).map Logger.layouters =
      (SetLayout callerLogger "%l".data).map Logger.layouters) ∧
    (SetLayout baseLogger "%l".data = some msgOnlyLogger ∧
     (SetLayout msgOnlyLogger "%l".data).map Logger.layouters = some msgOnlyLogger.layouters) :=
  ⟨(c4_setLayout_replaces baseLogger callerLogger "%l".data).1,
   ⟨by decide,
    (c4_setLayout_replaces baseLogger callerLogger "%l".data).2 msgOnlyLogger (by decide)⟩⟩


/-! ### C8 — the short-file formatter -/

/-- Helper: when no position in `1 .. i` holds a slash, the downward scan falls
through and keeps the whole string. -/
theorem shortFileAux_of_no_slash (file : List Char) :
    ∀ i, (∀ j, 1 ≤ j → j ≤ i → ¬ file.getD j ' ' = '/') → shortFileAux file i = file := by
  intro i
  induction i with
  | zero => intro _; rfl
  | succ i ih =>
    intro h
    have h1 : ¬ file.getD (i + 1) ' ' = '/' := h (i + 1) (by omega) (by omega)
    show (if file.getD (i + 1) ' ' = '/' then file.drop (i + 2) else shortFileAux file i) = file
    rw [if_neg h1]
    exact ih (fun j hj1 hj2 => h j hj1 (by omega))

/-- Helper: the downward scan stops at the greatest position `j ≤ i` (with
`j ≥ 1`) holding a slash and keeps the suffix after it. -/
theorem shortFileAux_of_slash (file : List Char) :
    ∀ i j, 1 ≤ j → j ≤ i → file.getD j ' ' = '/' →
      (∀ k, j < k → k ≤ i → ¬ file.getD k ' ' = '/') →
      shortFileAux file i = file.drop (j + 1) := by
  intro i
  induction i with
  | zero => intro j h1 h2 _ _; omega
  | succ i ih =>
    intro j h1 h2 hj hno
    by_cases hji : j = i + 1
    · subst hji
      show (if file.getD (i + 1) ' ' = '/' then file.drop (i + 2) else shortFileAux file i) =
        file.drop (i + 1 + 1)
      rw [if_pos hj]
    · have hk : ¬ file.getD (i + 1) ' ' = '/' := hno (i + 1) (by omega) (by omega)
      show (if file.getD (i + 1) ' ' = '/' then file.drop (i + 2) else shortFileAux file i) =
        file.drop (j + 1)
      rw [if_neg hk]
      exact ih j h1 (by omega) hj (fun k hk1 hk2 => hno k hk1 (by omega))

/-- The search predicate of the short-file loop: index `k ≥ 1` holds a slash. -/
def slashAt (file : List Char) (k : Nat) : Prop := 1 ≤ k ∧ file.getD k ' ' = '/'

instance (file : List Char) : DecidablePred (slashAt file) :=
  fun k => inferInstanceAs (Decidable (1 ≤ k ∧ file.getD k ' ' = '/'))

/-- C8: the `%f` formatter keeps the segment after the last `'/'` — the result
is a suffix immediately preceded by a `'/'` and containing no further `'/'` —
whenever a slash occurs at some index ≥ 1, and keeps the whole string when no
slash occurs beyond index 0 (so a path whose only `'/'` is its first character
is kept whole). -/
theorem c8_short_file (file : List Char) :
    ('/' ∈ file.drop 1 →
      ∃ pre, file = pre ++ '/' :: shortFile file ∧ '/' ∉ shortFile file) ∧
    ('/' ∉ file.drop 1 → shortFile file = file) := by
  constructor
  · intro hmem
    obtain ⟨m, hm, hget⟩ := List.mem_iff_getElem.mp hmem
    have hlen1 : (file.drop 1).length = file.length - 1 := List.length_drop 1 file
    have hmlt : 1 + m < file.length := by omega
    have hgd : file.getD (1 + m) ' ' = '/' := by
      rw [List.getD_eq_getElem file ' ' hmlt]
      rw [List.getElem_drop] at hget
      exact hget
    have hP0 : slashAt file (1 + m) := ⟨by omega, hgd⟩
    have hbound : 1 + m ≤ file.length - 1 := by omega
    have hPj : slashAt file (Nat.findGreatest (slashAt file) (file.length - 1)) :=
      Nat.findGreatest_spec hbound hP0
    have hjle : Nat.findGreatest (slashAt file) (file.length - 1) ≤ file.length - 1 :=
      Nat.findGreatest_le _
    generalize hjdef : Nat.findGreatest (slashAt file) (file.length - 1) = j at hPj hjle
    have hj1 : 1 ≤ j := hPj.1
    have hjs : file.getD j ' ' = '/' := hPj.2
    have hjlt : j < file.length := by omega
    have hno : ∀ k, j < k → k ≤ file.length - 1 → ¬ file.getD k ' ' = '/' := by
      intro k hk1 hk2 hks
      exact Nat.findGreatest_is_greatest (hjdef ▸ hk1) hk2 ⟨by omega, hks⟩
    have hsf : shortFile file = file.drop (j + 1) :=
      shortFileAux_of_slash file (file.length - 1) j hj1 hjle hjs hno
    have hjelem : file[j] = '/' := by
      rw [← List.getD_eq_getElem file ' ' hjlt]
      exact hjs
    have htake : file = file.take j ++ '/' :: file.drop (j + 1) := by
      conv_lhs => rw [← List.take_append_drop j file]
      rw [List.drop_eq_getElem_cons hjlt, hjelem]
    refine ⟨file.take j, ?_, ?_⟩
    · rw [hsf]
      exact htake
    · rw [hsf]
      intro hmem2
      obtain ⟨m2, hm2, hg2⟩ := List.mem_iff_getElem.mp hmem2
      have hlen2 : (file.drop (j + 1)).length = file.length - (j + 1) :=
        List.length_drop _ _
      have hklt : (j + 1) + m2 < file.length := by omega
      have hgk : file.getD ((j + 1) + m2) ' ' = '/' := by
        rw [List.getD_eq_getElem file ' ' hklt]
        rw [List.getElem_drop] at hg2
        exact hg2
      exact hno ((j + 1) + m2) (by omega) (by omega) hgk
  · intro hnm
    apply shortFileAux_of_no_slash
    intro j hj1 hj2 hjs
    by_cases hjlen : j < file.length
    · apply hnm
      have hjelem : file[j] = '/' := by
        rw [← List.getD_eq_getElem file ' ' hjlen]
        exact hjs
      have hjm : j - 1 < (file.drop 1).length := by
        rw [List.length_drop]
        omega
      have hidx : 1 + (j - 1) = j := by omega
      have hdg : (file.drop 1).get ⟨j - 1, hjm⟩ = '/' := by
        rw [List.get_eq_getElem, List.getElem_drop]
        rw [getElem_congr hidx]
        exact hjelem
      rw [← hdg]
      exact List.get_mem _ _ _
    · rw [List.getD_eq_default file ' ' (by omega)] at hjs
      exact absurd hjs (by decide)

/-- Witness for `c8_short_file`: a path with an interior slash yields its base
name, and a path whose only slash is the leading character is kept whole. -/
theorem c8_short_file_witness :
    (('/' ∈ "ab/cd.go".data.drop 1) ∧
      (∃ pre, "ab/cd.go".data = pre ++ '/' :: shortFile "ab/cd.go".data ∧
        '/' ∉ shortFile "ab/cd.go".data)) ∧
    (('/' ∉ "/main.go".data.drop 1) ∧ shortFile "/main.go".data = "/main.go".data) :=
  ⟨⟨by decide, (c8_short_file "ab/cd.go".data).1 (by decide)⟩,
   ⟨by decide, (c8_short_file "/main.go".data).2 (by decide)⟩⟩

end XLog
